import Mathlib

/-!
Shallow embedding of the poll/dispatch/ack-nack engine of
`EventStoreConsumer` (src/src/index.ts) of node-ges-competing-consumer.

The embedding follows the source closely:
* `Link`, `Event` mirror the event shape received from the backend
  (an `eventId` plus a list of `links` with `relation` and `uri`).
* `ackNackHelper` mirrors `EventStoreConsumer.ackNackHelper`: fire the
  onAck/onNack hook, scan the links for the matching relation, and run the
  retry loop (`doRequest`) that issues the POST up to `retries` times with a
  fixed `delayMs` wait between attempts, calling `onError` and rejecting on
  the final failure.  The transport is abstracted as an oracle
  `attempt : Nat → Bool` saying whether the i-th request succeeds.
* `handleEvent` mirrors `EventStoreConsumer.handleEvent`: fire `onEvent`,
  invoke the handler once, then ack on resolution or (onError + nack) on
  rejection.  The handler outcome (the settled state of the promise the
  handler must return) is abstracted as `HandlerOutcome`.
* The polling / lifecycle part of the class is embedded as a labelled
  transition system further below.
-/

namespace EventStore

/-- A link of an event: a relation name (`ack` or `nack`) and a target uri. -/
structure Link where
  relation : String
  uri : String
deriving DecidableEq, Repr

/-- An event as received from a poll response: identifier plus links. -/
structure Event where
  eventId : String
  links : List Link
deriving DecidableEq, Repr

/-- The link scan of `ackNackHelper`: the `for` loop over `event.links`
that takes the `uri` of the first link whose `relation` equals `type`. -/
def findLink (links : List Link) (type : String) : Option String :=
  match links with
  | [] => none
  | l :: rest => if l.relation = type then some l.uri else findLink rest type

/-- Result of one run of the retry loop `doRequest` in `ackNackHelper`:
how many POST requests were issued, the waits inserted between consecutive
attempts (each `delayMs`, from `setTimeout(doRequest, delayMs)`), and
whether the promise resolved (`true`) or was rejected after the final
failure (`false`). -/
structure LoopResult where
  requestCount : Nat
  delays : List Nat
  resolvedOk : Bool
deriving DecidableEq, Repr

/-- The retry loop of `ackNackHelper`.  `attempt i` tells whether the i-th
issued request succeeds.  `fuel` is the number of attempts still allowed:
the JS loop increments `retryCount` on each failure and stops when
`retryCount === retries`, so starting with `fuel = retries` issues at most
`retries` requests; a success resolves immediately, a failure either stops
(last allowed attempt) or waits `delayMs` and retries. -/
def doRequest (attempt : Nat → Bool) (delayMs : Nat) : Nat → Nat → LoopResult
  | 0, _ => ⟨0, [], false⟩
  | fuel + 1, i =>
    if attempt i then ⟨1, [], true⟩
    else if fuel = 0 then ⟨1, [], false⟩
    else
      let r := doRequest attempt delayMs fuel (i + 1)
      ⟨r.requestCount + 1, delayMs :: r.delays, r.resolvedOk⟩

/-- Observable outcome of one `ackNackHelper` call. -/
structure AckNackOutcome where
  onAckCount : Nat
  onNackCount : Nat
  url : Option String
  requestCount : Nat
  delays : List Nat
  onErrorCount : Nat
  resolvedOk : Bool
deriving DecidableEq, Repr

/-- Mirrors `EventStoreConsumer.ackNackHelper(event, type, retries = 3, delayMs = 500)`:
fire `onAck` or `onNack` according to `type`, scan the links for the
matching relation, resolve as a no-op when no link matches, otherwise run
the retry loop; on the final failure `onError` fires once and the promise
rejects. -/
def ackNackHelper (attempt : Nat → Bool) (event : Event) (type : String)
    (retries : Nat) (delayMs : Nat) : AckNackOutcome :=
  let onAckCount : Nat := if type = "ack" then 1 else 0
  let onNackCount : Nat := if type = "ack" then 0 else 1
  match findLink event.links type with
  | none =>
    ⟨onAckCount, onNackCount, none, 0, [], 0, true⟩
  | some url =>
    let r := doRequest attempt delayMs retries 0
    ⟨onAckCount, onNackCount, some url, r.requestCount, r.delays,
      (if r.resolvedOk then 0 else 1), r.resolvedOk⟩

/-- Default retry bound of `ackNackHelper` (`retries = 3`). -/
def defaultRetries : Nat := 3

/-- Default inter-attempt delay of `ackNackHelper` (`delayMs = 500`). -/
def defaultDelayMs : Nat := 500

/-- Mirrors `EventStoreConsumer.ack(event)`: `ackNackHelper` with type `ack` at the
default retry parameters. -/
def ack (attempt : Nat → Bool) (event : Event) : AckNackOutcome :=
  ackNackHelper attempt event "ack" defaultRetries defaultDelayMs

/-- Mirrors `EventStoreConsumer.nack(event)`: `ackNackHelper` with type `nack` at the
default retry parameters. -/
def nack (attempt : Nat → Bool) (event : Event) : AckNackOutcome :=
  ackNackHelper attempt event "nack" defaultRetries defaultDelayMs

/-- The settled state of `Promise.resolve(this.handler(event))`: the
promise returned by the handler either resolves or rejects. -/
inductive HandlerOutcome where
  | resolves
  | rejects
deriving DecidableEq, Repr

/-- Observable trace of one `handleEvent` call. -/
structure HandleTrace where
  onEventCount : Nat
  handlerInvocations : Nat
  ackCalls : Nat
  nackCalls : Nat
  handlerErrorHookCount : Nat
  ackNack : AckNackOutcome
deriving DecidableEq, Repr

/-- Mirrors `EventStoreConsumer.handleEvent(event)`: fire `onEvent`, invoke the
handler once, then ack the event when its promise resolves, or fire
`onError` and nack it when its promise rejects; the returned promise is the
ack/nack promise, so the handler error itself never propagates. -/
def handleEvent (attempt : Nat → Bool) (event : Event)
    (outcome : HandlerOutcome) : HandleTrace :=
  match outcome with
  | .resolves => ⟨1, 1, 1, 0, 0, ack attempt event⟩
  | .rejects => ⟨1, 1, 0, 1, 1, nack attempt event⟩

end EventStore

/-!
The polling / lifecycle state of `EventStoreConsumer`, embedded as a
labelled transition system.  The mutable fields of the class are:

* `running` — the `this.running` flag,
* `polling` — the `this.polling` flag,
* `outstanding` — how many fetch (GET) requests are actually in flight
  (incremented when `poll` issues a request, decremented when its success
  or failure handler runs; the source keeps no such counter, it is the
  quantity the `polling` flag is meant to track),
* `timerField` — whether `this.pollTimer` is set (note: a fired timer does
  NOT clear the field; only `cancelScheduledPoll` deletes it),
* `timerPending` — how many `setTimeout` callbacks are actually pending
  (a fired or cleared timeout is no longer pending),
* `queueLen` — `this.queue.size + this.queue.pending`, the value of
  `getQueueLength()`.

Suspension points of the source (the fetch request resolving or rejecting,
a timer firing, a queued task settling) are separate steps; everything the
source does synchronously between two suspension points is one step.
-/

namespace EventStore

/-- Construction-time configuration relevant to the polling loop. -/
structure Config where
  concurrency : Nat
  pollDelay : Nat
deriving DecidableEq, Repr

/-- The mutable state of an `EventStoreConsumer` instance. -/
structure ConsumerState where
  running : Bool
  polling : Bool
  outstanding : Nat
  timerField : Bool
  timerPending : Nat
  queueLen : Nat
deriving DecidableEq, Repr

/-- Externally observable actions of one step. -/
inductive Label where
  | fetchIssued (count : Nat)
  | pollEmitted
  | drainEmitted
  | errorHook
deriving DecidableEq, Repr

/-- State right after the constructor ran: not running, not polling, no
request outstanding, no timer, empty queue. -/
def initialState : ConsumerState :=
  ⟨false, false, 0, false, 0, 0⟩

/-- Mirrors `getQueueLength()`: `queue.size + queue.pending`, here kept as one
counter. -/
def getQueueLength (s : ConsumerState) : Nat :=
  s.queueLen

/-- Mirrors `schedulePoll()`: if `this.pollTimer` is set, return (only one poll may
be scheduled at a time); otherwise set the field and arm a timeout. -/
def schedulePoll (s : ConsumerState) : ConsumerState :=
  if s.timerField then s
  else { s with timerField := true, timerPending := s.timerPending + 1 }

/-- Mirrors `cancelScheduledPoll()`: `clearTimeout(this.pollTimer)` (no callback
stays pending) and `delete this.pollTimer`. -/
def cancelScheduledPoll (s : ConsumerState) : ConsumerState :=
  { s with timerField := false, timerPending := 0 }

/-- Mirrors `poll()` up to its first suspension point: compute
`count = concurrency − getQueueLength()`; if `count ≤ 0` call
`schedulePoll` and return; if `this.polling`, return; otherwise set
`polling`, cancel any scheduled poll and issue the GET request for `count`
events. -/
def poll (cfg : Config) (s : ConsumerState) : ConsumerState × List Label :=
  let count : Int := (cfg.concurrency : Int) - (getQueueLength s : Int)
  if count ≤ 0 then (schedulePoll s, [])
  else if s.polling then (s, [])
  else
    let s1 := cancelScheduledPoll { s with polling := true }
    ({ s1 with outstanding := s1.outstanding + 1 }, [.fetchIssued count.toNat])

/-- Mirrors `start()`: set `running` and invoke `poll`. -/
def start (cfg : Config) (s : ConsumerState) : ConsumerState × List Label :=
  poll cfg { s with running := true }

/-- Mirrors `stop()`: clear `running`, cancel any scheduled poll; the returned
Boolean is whether the promise is already resolved (queue empty), otherwise
it resolves on the next `drain` event. -/
def stop (s : ConsumerState) : ConsumerState × Bool :=
  let s1 := cancelScheduledPoll { s with running := false }
  (s1, getQueueLength s1 = 0)

/-- The fulfilled handler of the fetch request in `poll`: clear `polling`;
if no longer running, return; with `entries` events, add each to the queue,
call `poll` again and emit `poll`; with none, `schedulePoll` and emit
`poll`.  The completed request is no longer outstanding. -/
def completeSuccess (cfg : Config) (s : ConsumerState) (entries : Nat) :
    ConsumerState × List Label :=
  let s1 := { s with polling := false, outstanding := s.outstanding - 1 }
  if ¬ s1.running then (s1, [])
  else if 0 < entries then
    let s2 := { s1 with queueLen := s1.queueLen + entries }
    let r := poll cfg s2
    (r.1, r.2 ++ [.pollEmitted])
  else
    (schedulePoll s1, [.pollEmitted])

/-- The rejected handler of the fetch request in `poll`: clear `polling`,
call `onError`, and `schedulePoll` when still running.  No `poll` event is
emitted on this path. -/
def completeFailure (cfg : Config) (s : ConsumerState) :
    ConsumerState × List Label :=
  let s1 := { s with polling := false, outstanding := s.outstanding - 1 }
  if s1.running then (schedulePoll s1, [.errorHook])
  else (s1, [.errorHook])

/-- A pending `setTimeout(this.poll.bind(this), pollDelay)` fires: the
callback is no longer pending (but `this.pollTimer` keeps the fired handle)
and `poll` runs. -/
def timerFire (cfg : Config) (s : ConsumerState) : ConsumerState × List Label :=
  poll cfg { s with timerPending := s.timerPending - 1 }

/-- Mirrors `didHandleEvent()`: emit `drain` when the queue is empty, then `poll`
again when still running. -/
def didHandleEvent (cfg : Config) (s : ConsumerState) : ConsumerState × List Label :=
  let ls : List Label := if getQueueLength s = 0 then [.drainEmitted] else []
  if s.running then
    let r := poll cfg s
    (r.1, ls ++ r.2)
  else (s, ls)

/-- A task added by `queue.add(handleEvent).then(didHandleEvent, e =>
console.log(e.stack))` settles: the count of the queue drops by one; when the
`handleEvent` promise was fulfilled, `didHandleEvent` runs; when it was
rejected (the ack/nack rejected after exhausting its retries), the rejection
goes to the `console.log` handler and `didHandleEvent` is skipped. -/
def taskCompleted (cfg : Config) (s : ConsumerState) (rejected : Bool) :
    ConsumerState × List Label :=
  let s1 := { s with queueLen := s.queueLen - 1 }
  if rejected then (s1, [])
  else didHandleEvent cfg s1

/-- Steps taken by the environment: a fetch request completing (success or
failure), a pending timer firing, a queued task settling. -/
inductive EnvStep (cfg : Config) : ConsumerState → List Label → ConsumerState → Prop
  | completeSuccess {s : ConsumerState} (entries : Nat) (h : 1 ≤ s.outstanding) :
      EnvStep cfg s (completeSuccess cfg s entries).2 (completeSuccess cfg s entries).1
  | completeFailure {s : ConsumerState} (h : 1 ≤ s.outstanding) :
      EnvStep cfg s (completeFailure cfg s).2 (completeFailure cfg s).1
  | timerFire {s : ConsumerState} (h : 1 ≤ s.timerPending) :
      EnvStep cfg s (timerFire cfg s).2 (timerFire cfg s).1
  | taskCompleted {s : ConsumerState} (rejected : Bool) (h : 1 ≤ s.queueLen) :
      EnvStep cfg s (taskCompleted cfg s rejected).2 (taskCompleted cfg s rejected).1

/-- All steps: environment steps plus the public operations `start` and
`stop`. -/
inductive Step (cfg : Config) : ConsumerState → List Label → ConsumerState → Prop
  | env {s : ConsumerState} {ls : List Label} {s' : ConsumerState}
      (h : EnvStep cfg s ls s') : Step cfg s ls s'
  | start (s : ConsumerState) : Step cfg s (start cfg s).2 (start cfg s).1
  | stop (s : ConsumerState) : Step cfg s [] (stop s).1

/-- States reachable from the freshly constructed consumer. -/
inductive Reachable (cfg : Config) : ConsumerState → Prop
  | init : Reachable cfg initialState
  | step {s : ConsumerState} {ls : List Label} {s' : ConsumerState}
      (hs : Reachable cfg s) (h : Step cfg s ls s') : Reachable cfg s'

/-- Sequences of environment steps, with their accumulated labels. -/
inductive EnvTrace (cfg : Config) : ConsumerState → List Label → ConsumerState → Prop
  | refl (s : ConsumerState) : EnvTrace cfg s [] s
  | step {s : ConsumerState} {ls : List Label} {s' : ConsumerState}
      {ls2 : List Label} {s'' : ConsumerState}
      (h : EnvStep cfg s ls s') (ht : EnvTrace cfg s' ls2 s'') :
      EnvTrace cfg s (ls ++ ls2) s''

/-- JS `a || b` on a possibly-missing string: `undefined` and the empty
string are falsy. -/
def jsOrString (a : Option String) (b : String) : String :=
  match a with
  | none => b
  | some s => if s = "" then b else s

/-- JS `a || b` on a possibly-missing number: `undefined` and `0` are
falsy. -/
def jsOrNat (a : Option Nat) (b : Nat) : Nat :=
  match a with
  | none => b
  | some n => if n = 0 then b else n

/-- The `EventStoreConsumerParams` object handed to the constructor;
`none` models an absent (`undefined`) option. -/
structure Params where
  stream : Option String
  group : Option String
  concurrency : Option Nat
  eventStoreUrl : Option String
  pollDelay : Option Nat
deriving DecidableEq, Repr

/-- The fields the constructor sets on the instance. -/
structure Constructed where
  stream : Option String
  group : Option String
  concurrency : Nat
  eventStoreUrl : String
  pollDelay : Nat
deriving DecidableEq, Repr

/-- The `EventStoreConsumer` constructor: copy `stream`, `group` and the
handler unchecked, default `concurrency` to 1 and `pollDelay` to 500,
resolve `eventStoreUrl` as `params.eventStoreUrl ||
process.env.EVENT_STORE_URL || ""` and throw when the result is falsy.
`envUrl` models `process.env.EVENT_STORE_URL`. -/
def construct (params : Params) (envUrl : Option String) :
    Except String Constructed :=
  let concurrency := jsOrNat params.concurrency 1
  let pollDelay := jsOrNat params.pollDelay 500
  let url := jsOrString params.eventStoreUrl (jsOrString envUrl "")
  if url = "" then
    .error "Event Store URL must be supplied to EventStoreConsumer. Either set the eventStoreUrl option or set the EVENT_STORE_URL env variable."
  else
    .ok ⟨params.stream, params.group, concurrency, url, pollDelay⟩

/-- Modelled from the spec: the bounded-concurrency executor backing
`this.queue` is the external `p-queue` dependency, constructed in
`src/src/index.ts` as `new PQueue({concurrency: this.concurrency})` but not
itself part of the sources of this repository.  Following the Dispatch
Queue contract (4.2), its state is a count of pending (submitted, not yet
started) and in-flight (started, not yet completed) handler invocations
together with the concurrency ceiling. -/
structure DispatchQueue where
  limit : Nat
  pending : Nat
  inFlight : Nat
deriving DecidableEq, Repr

/-- Modelled from the spec: a freshly constructed dispatch queue with
ceiling `limit` holds no work. -/
def DispatchQueue.new (limit : Nat) : DispatchQueue :=
  ⟨limit, 0, 0⟩

/-- Modelled from the spec: the transitions of the dispatch queue.  `submit`
accepts one event; `dispatch` starts a pending task only when fewer than
`limit` are in flight; `complete` finishes an in-flight task. -/
inductive QueueStep : DispatchQueue → DispatchQueue → Prop
  | submit {q : DispatchQueue} :
      QueueStep q { q with pending := q.pending + 1 }
  | dispatch {q : DispatchQueue} (hcap : q.inFlight < q.limit)
      (hpend : 1 ≤ q.pending) :
      QueueStep q { q with pending := q.pending - 1, inFlight := q.inFlight + 1 }
  | complete {q : DispatchQueue} (h : 1 ≤ q.inFlight) :
      QueueStep q { q with inFlight := q.inFlight - 1 }

/-- Modelled from the spec: queue states reachable from the fresh queue by
submissions, dispatches and completions. -/
inductive QueueReachable (limit : Nat) : DispatchQueue → Prop
  | init : QueueReachable limit (DispatchQueue.new limit)
  | step {q q' : DispatchQueue} (hq : QueueReachable limit q)
      (h : QueueStep q q') : QueueReachable limit q'

/-- Configuration used for concrete runs: concurrency 1, poll delay 500. -/
def cfgOne : Config := ⟨1, 500⟩

/-- Concrete run: the state right after `start()` on a fresh consumer with
concurrency 1 (a fetch for one event is outstanding). -/
def afterStart : ConsumerState := (start cfgOne initialState).1

/-- Concrete run: the fetch returned one event; the queue is full and a
delayed re-check is scheduled. -/
def afterBatch : ConsumerState := (completeSuccess cfgOne afterStart 1).1

/-- A concrete event carrying both an ack and a nack link. -/
def sampleEvent : Event :=
  ⟨"ev1", [⟨"ack", "http://es/ack/ev1"⟩, ⟨"nack", "http://es/nack/ev1"⟩]⟩

/-- A concrete event without any links. -/
def linklessEvent : Event :=
  ⟨"ev2", []⟩

/-- A transport oracle whose every request fails. -/
def alwaysFail : Nat → Bool := fun _ => false

end EventStore

namespace EventStore

theorem doRequest_allFail (attempt : Nat → Bool) (d : Nat) :
    ∀ fuel i, (∀ j, attempt j = false) → 1 ≤ fuel →
      doRequest attempt d fuel i = ⟨fuel, List.replicate (fuel - 1) d, false⟩ := by
  intro fuel
  induction fuel with
  | zero => intro i _ h1; omega
  | succ n ih =>
    intro i h _
    cases n with
    | zero => simp [doRequest, h i]
    | succ m =>
      have hrec := ih (i + 1) h (by omega)
      rw [doRequest]
      simp only [h i, Bool.false_eq_true, if_false, Nat.succ_ne_zero, ite_false, hrec]
      simp [List.replicate_succ]

theorem ackNackHelper_url (attempt : Nat → Bool) (event : Event)
    (type : String) (retries delayMs : Nat) :
    (ackNackHelper attempt event type retries delayMs).url =
      findLink event.links type := by
  unfold ackNackHelper
  cases h : findLink event.links type <;> simp [h]

/-- C3: when every transport request for an ack/nack fails, exactly
`retries` requests are issued (3 at the default), the waits between
consecutive attempts are all the fixed `delayMs` (500 at the default, no
jitter, no growth), the error hook fires exactly once after the final
failure, and the promise rejects (no further request is issued). -/
theorem ackNackHelper_exhausts_retries (attempt : Nat → Bool) (event : Event)
    (type : String) (retries delayMs : Nat) (u : String)
    (hlink : findLink event.links type = some u)
    (hfail : ∀ j, attempt j = false) (hr : 1 ≤ retries) :
    (ackNackHelper attempt event type retries delayMs).requestCount = retries ∧
    (ackNackHelper attempt event type retries delayMs).delays =
      List.replicate (retries - 1) delayMs ∧
    (ackNackHelper attempt event type retries delayMs).onErrorCount = 1 ∧
    (ackNackHelper attempt event type retries delayMs).resolvedOk = false := by
  unfold ackNackHelper
  simp [hlink, doRequest_allFail attempt delayMs retries 0 hfail hr]

theorem ackNackHelper_exhausts_retries_witness :
    findLink sampleEvent.links "ack" = some "http://es/ack/ev1" ∧
    (∀ j, alwaysFail j = false) ∧ 1 ≤ defaultRetries ∧
    (ackNackHelper alwaysFail sampleEvent "ack" defaultRetries defaultDelayMs).requestCount = 3 ∧
    (ackNackHelper alwaysFail sampleEvent "ack" defaultRetries defaultDelayMs).delays = [500, 500] ∧
    (ackNackHelper alwaysFail sampleEvent "ack" defaultRetries defaultDelayMs).onErrorCount = 1 ∧
    (ackNackHelper alwaysFail sampleEvent "ack" defaultRetries defaultDelayMs).resolvedOk = false := by
  refine ⟨by decide, fun j => rfl, by decide, ?_⟩
  have h := ackNackHelper_exhausts_retries alwaysFail sampleEvent "ack"
    defaultRetries defaultDelayMs "http://es/ack/ev1" (by decide)
    (fun j => rfl) (by decide)
  exact ⟨h.1, by rw [h.2.1]; decide, h.2.2.1, h.2.2.2⟩

/-- C6: when the links of the event contain no link whose relation matches the
outcome, `ackNackHelper` issues no request and resolves as a no-op
success. -/
theorem ackNackHelper_noLink_noop (attempt : Nat → Bool) (event : Event)
    (type : String) (retries delayMs : Nat)
    (h : findLink event.links type = none) :
    (ackNackHelper attempt event type retries delayMs).requestCount = 0 ∧
    (ackNackHelper attempt event type retries delayMs).onErrorCount = 0 ∧
    (ackNackHelper attempt event type retries delayMs).resolvedOk = true := by
  unfold ackNackHelper
  simp [h]

theorem ackNackHelper_noLink_noop_witness :
    findLink linklessEvent.links "ack" = none ∧
    (ackNackHelper alwaysFail linklessEvent "ack" defaultRetries defaultDelayMs).requestCount = 0 ∧
    (ackNackHelper alwaysFail linklessEvent "ack" defaultRetries defaultDelayMs).onErrorCount = 0 ∧
    (ackNackHelper alwaysFail linklessEvent "ack" defaultRetries defaultDelayMs).resolvedOk = true := by
  refine ⟨by decide, ?_⟩
  exact ackNackHelper_noLink_noop alwaysFail linklessEvent "ack"
    defaultRetries defaultDelayMs (by decide)

/-- C7: the handler of each submitted event is invoked exactly once and exactly
one of ack or nack is issued for it, against the link whose relation
matches the outcome: ack when the promise of the handler resolves, nack together
with one error-hook call when it rejects; the two outcomes are exclusive,
so no duplicate ack/nack arises, and the handler error is consumed by the
nack branch instead of propagating. -/
theorem handleEvent_exactly_one_acknack (attempt : Nat → Bool)
    (event : Event) (outcome : HandlerOutcome) :
    (handleEvent attempt event outcome).handlerInvocations = 1 ∧
    (handleEvent attempt event outcome).ackCalls +
      (handleEvent attempt event outcome).nackCalls = 1 ∧
    (outcome = HandlerOutcome.resolves →
      (handleEvent attempt event outcome).ackCalls = 1 ∧
      (handleEvent attempt event outcome).ackNack.onAckCount = 1 ∧
      (handleEvent attempt event outcome).ackNack.url = findLink event.links "ack" ∧
      (handleEvent attempt event outcome).handlerErrorHookCount = 0) ∧
    (outcome = HandlerOutcome.rejects →
      (handleEvent attempt event outcome).nackCalls = 1 ∧
      (handleEvent attempt event outcome).ackNack.onNackCount = 1 ∧
      (handleEvent attempt event outcome).ackNack.url = findLink event.links "nack" ∧
      (handleEvent attempt event outcome).handlerErrorHookCount = 1) := by
  cases outcome <;>
    simp [handleEvent, ack, nack, ackNackHelper_url, ackNackHelper,
      defaultRetries, defaultDelayMs] <;>
    cases h : findLink event.links "ack" <;>
    cases h2 : findLink event.links "nack" <;> simp [h, h2]

theorem poll_eq_nocap (cfg : Config) (s : ConsumerState)
    (h : (cfg.concurrency : Int) - (getQueueLength s : Int) ≤ 0) :
    poll cfg s = (schedulePoll s, []) := by
  simp only [poll]
  rw [if_pos h]

theorem poll_eq_busy (cfg : Config) (s : ConsumerState)
    (h1 : ¬ ((cfg.concurrency : Int) - (getQueueLength s : Int) ≤ 0))
    (h2 : s.polling = true) :
    poll cfg s = (s, []) := by
  simp only [poll]
  rw [if_neg h1, if_pos h2]

theorem poll_eq_issue (cfg : Config) (s : ConsumerState)
    (h1 : ¬ ((cfg.concurrency : Int) - (getQueueLength s : Int) ≤ 0))
    (h2 : s.polling = false) :
    poll cfg s =
      (⟨s.running, true, s.outstanding + 1, false, 0, s.queueLen⟩,
        [Label.fetchIssued ((cfg.concurrency : Int) - (getQueueLength s : Int)).toNat]) := by
  simp only [poll]
  rw [if_neg h1, if_neg (by simp [h2])]
  rfl

theorem poll_no_pollEmitted (cfg : Config) (s : ConsumerState) :
    Label.pollEmitted ∉ (poll cfg s).2 := by
  by_cases h1 : (cfg.concurrency : Int) - (getQueueLength s : Int) ≤ 0
  · rw [poll_eq_nocap cfg s h1]
    simp
  · by_cases h2 : s.polling
    · rw [poll_eq_busy cfg s h1 h2]
      simp
    · rw [poll_eq_issue cfg s h1 (by simpa using h2)]
      simp

theorem poll_issue_cancels (cfg : Config) (s : ConsumerState) (c : Nat)
    (h : Label.fetchIssued c ∈ (poll cfg s).2) :
    (poll cfg s).1.timerPending = 0 ∧ (poll cfg s).1.timerField = false := by
  by_cases h1 : (cfg.concurrency : Int) - (getQueueLength s : Int) ≤ 0
  · rw [poll_eq_nocap cfg s h1] at h
    simp at h
  · by_cases h2 : s.polling
    · rw [poll_eq_busy cfg s h1 h2] at h
      simp at h
    · rw [poll_eq_issue cfg s h1 (by simpa using h2)]
      exact ⟨rfl, rfl⟩

theorem poll_fetch_positive (cfg : Config) (s : ConsumerState) (c : Nat)
    (h : Label.fetchIssued c ∈ (poll cfg s).2) :
    0 < c ∧ (c : Int) = (cfg.concurrency : Int) - (getQueueLength s : Int) := by
  by_cases h1 : (cfg.concurrency : Int) - (getQueueLength s : Int) ≤ 0
  · rw [poll_eq_nocap cfg s h1] at h
    simp at h
  · by_cases h2 : s.polling
    · rw [poll_eq_busy cfg s h1 h2] at h
      simp at h
    · rw [poll_eq_issue cfg s h1 (by simpa using h2)] at h
      simp at h
      subst h
      omega

theorem completeSuccess_eq_stopped (cfg : Config) (s : ConsumerState)
    (entries : Nat) (h : s.running = false) :
    completeSuccess cfg s entries =
      ({ s with polling := false, outstanding := s.outstanding - 1 }, []) := by
  simp only [completeSuccess]
  rw [if_pos (by simp [h])]

theorem completeSuccess_eq_entries (cfg : Config) (s : ConsumerState)
    (entries : Nat) (h : s.running = true) (he : 0 < entries) :
    completeSuccess cfg s entries =
      ((poll cfg
          { s with polling := false, outstanding := s.outstanding - 1,
                   queueLen := s.queueLen + entries }).1,
        (poll cfg
          { s with polling := false, outstanding := s.outstanding - 1,
                   queueLen := s.queueLen + entries }).2 ++ [Label.pollEmitted]) := by
  simp only [completeSuccess]
  rw [if_neg (by simp [h]), if_pos he]

theorem completeSuccess_eq_empty (cfg : Config) (s : ConsumerState)
    (entries : Nat) (h : s.running = true) (he : ¬ 0 < entries) :
    completeSuccess cfg s entries =
      (schedulePoll { s with polling := false, outstanding := s.outstanding - 1 },
        [Label.pollEmitted]) := by
  simp only [completeSuccess]
  rw [if_neg (by simp [h]), if_neg he]

theorem completeFailure_eq_running (cfg : Config) (s : ConsumerState)
    (h : s.running = true) :
    completeFailure cfg s =
      (schedulePoll { s with polling := false, outstanding := s.outstanding - 1 },
        [Label.errorHook]) := by
  simp only [completeFailure]
  rw [if_pos (by simp [h])]

theorem completeFailure_eq_stopped (cfg : Config) (s : ConsumerState)
    (h : s.running = false) :
    completeFailure cfg s =
      ({ s with polling := false, outstanding := s.outstanding - 1 },
        [Label.errorHook]) := by
  simp only [completeFailure]
  rw [if_neg (by simp [h])]

theorem didHandleEvent_eq_running (cfg : Config) (s : ConsumerState)
    (h : s.running = true) :
    didHandleEvent cfg s =
      ((poll cfg s).1,
        (if getQueueLength s = 0 then [Label.drainEmitted] else []) ++ (poll cfg s).2) := by
  simp only [didHandleEvent]
  rw [if_pos h]

theorem didHandleEvent_eq_stopped (cfg : Config) (s : ConsumerState)
    (h : s.running = false) :
    didHandleEvent cfg s =
      (s, if getQueueLength s = 0 then [Label.drainEmitted] else []) := by
  simp only [didHandleEvent]
  rw [if_neg (by simp [h])]

/-- The poll-token invariant the source maintains: the `polling` flag
tracks the outstanding fetch requests exactly, at most one timeout is
pending, and a pending timeout implies the `pollTimer` field is set. -/
def Inv (s : ConsumerState) : Prop :=
  s.outstanding = (if s.polling then 1 else 0) ∧
  s.timerPending ≤ 1 ∧
  (s.timerField = false → s.timerPending = 0)

theorem inv_initial : Inv initialState := by
  simp [Inv, initialState]

theorem inv_schedulePoll (s : ConsumerState) (h : Inv s) :
    Inv (schedulePoll s) := by
  obtain ⟨h1, h2, h3⟩ := h
  unfold schedulePoll
  by_cases ht : s.timerField
  · rw [if_pos ht]
    exact ⟨h1, h2, h3⟩
  · rw [if_neg ht]
    have hp : s.timerPending = 0 := h3 (by simpa using ht)
    refine ⟨h1, ?_, ?_⟩
    · show s.timerPending + 1 ≤ 1
      omega
    · intro hf
      simp at hf

theorem inv_afterComplete (s : ConsumerState) (h : Inv s) :
    Inv { s with polling := false, outstanding := s.outstanding - 1 } := by
  obtain ⟨h1, h2, h3⟩ := h
  refine ⟨?_, h2, h3⟩
  show s.outstanding - 1 = 0
  split_ifs at h1 <;> omega

theorem inv_queueLen (s : ConsumerState) (n : Nat) (h : Inv s) :
    Inv { s with queueLen := n } := by
  obtain ⟨h1, h2, h3⟩ := h
  exact ⟨h1, h2, h3⟩

theorem inv_poll (cfg : Config) (s : ConsumerState) (h : Inv s) :
    Inv (poll cfg s).1 := by
  by_cases h1 : (cfg.concurrency : Int) - (getQueueLength s : Int) ≤ 0
  · rw [poll_eq_nocap cfg s h1]
    exact inv_schedulePoll s h
  · by_cases h2 : s.polling
    · rw [poll_eq_busy cfg s h1 h2]
      exact h
    · obtain ⟨ha, _, _⟩ := h
      have hp : s.polling = false := by simpa using h2
      rw [hp] at ha
      simp at ha
      rw [poll_eq_issue cfg s h1 hp]
      exact ⟨by simp [ha], by simp, by simp⟩

theorem inv_completeSuccess (cfg : Config) (s : ConsumerState) (entries : Nat)
    (h : Inv s) : Inv (completeSuccess cfg s entries).1 := by
  have h1 := inv_afterComplete s h
  by_cases hr : s.running = true
  · by_cases he : 0 < entries
    · rw [completeSuccess_eq_entries cfg s entries hr he]
      exact inv_poll cfg _ (inv_queueLen _ _ h1)
    · rw [completeSuccess_eq_empty cfg s entries hr he]
      exact inv_schedulePoll _ h1
  · rw [completeSuccess_eq_stopped cfg s entries (by simpa using hr)]
    exact h1

theorem inv_completeFailure (cfg : Config) (s : ConsumerState)
    (h : Inv s) : Inv (completeFailure cfg s).1 := by
  have h1 := inv_afterComplete s h
  by_cases hr : s.running = true
  · rw [completeFailure_eq_running cfg s hr]
    exact inv_schedulePoll _ h1
  · rw [completeFailure_eq_stopped cfg s (by simpa using hr)]
    exact h1

theorem inv_timerFire (cfg : Config) (s : ConsumerState) (h : Inv s) :
    Inv (timerFire cfg s).1 := by
  obtain ⟨h1, h2, h3⟩ := h
  refine inv_poll cfg _ ⟨h1, ?_, ?_⟩
  · show s.timerPending - 1 ≤ 1
    omega
  · intro hf
    show s.timerPending - 1 = 0
    simp [h3 hf]

theorem inv_didHandleEvent (cfg : Config) (s : ConsumerState) (h : Inv s) :
    Inv (didHandleEvent cfg s).1 := by
  by_cases hr : s.running = true
  · rw [didHandleEvent_eq_running cfg s hr]
    exact inv_poll cfg s h
  · rw [didHandleEvent_eq_stopped cfg s (by simpa using hr)]
    exact h

theorem inv_taskCompleted (cfg : Config) (s : ConsumerState) (rejected : Bool)
    (h : Inv s) : Inv (taskCompleted cfg s rejected).1 := by
  cases rejected
  · exact inv_didHandleEvent cfg _ (inv_queueLen _ _ h)
  · exact inv_queueLen _ _ h

theorem inv_running (s : ConsumerState) (b : Bool) (h : Inv s) :
    Inv { s with running := b } := by
  obtain ⟨h1, h2, h3⟩ := h
  exact ⟨h1, h2, h3⟩

theorem inv_step (cfg : Config) (s : ConsumerState) (ls : List Label)
    (s' : ConsumerState) (h : Inv s) (hs : Step cfg s ls s') : Inv s' := by
  cases hs with
  | env henv =>
    cases henv with
    | completeSuccess entries ho => exact inv_completeSuccess cfg s entries h
    | completeFailure ho => exact inv_completeFailure cfg s h
    | timerFire ho => exact inv_timerFire cfg s h
    | taskCompleted rejected hq => exact inv_taskCompleted cfg s rejected h
  | start => exact inv_poll cfg _ (inv_running s true h)
  | stop =>
    obtain ⟨h1, h2, h3⟩ := h
    exact ⟨h1, by show (0 : Nat) ≤ 1; decide, fun hf => rfl⟩

theorem step_fetch_cancels (cfg : Config) (s : ConsumerState)
    (ls : List Label) (s' : ConsumerState) (hs : Step cfg s ls s')
    (c : Nat) (hm : Label.fetchIssued c ∈ ls) : s'.timerPending = 0 := by
  cases hs with
  | env henv =>
    cases henv with
    | completeSuccess entries ho =>
      by_cases hr : s.running = true
      · by_cases he : 0 < entries
        · rw [completeSuccess_eq_entries cfg s entries hr he] at hm ⊢
          simp only [List.mem_append, List.mem_singleton] at hm
          rcases hm with hm | hm
          · exact (poll_issue_cancels cfg _ c hm).1
          · simp at hm
        · rw [completeSuccess_eq_empty cfg s entries hr he] at hm
          simp at hm
      · rw [completeSuccess_eq_stopped cfg s entries (by simpa using hr)] at hm
        simp at hm
    | completeFailure ho =>
      by_cases hr : s.running = true
      · rw [completeFailure_eq_running cfg s hr] at hm
        simp at hm
      · rw [completeFailure_eq_stopped cfg s (by simpa using hr)] at hm
        simp at hm
    | timerFire ho =>
      exact (poll_issue_cancels cfg _ c hm).1
    | taskCompleted rejected hq =>
      cases rejected
      · by_cases hr : ({ s with queueLen := s.queueLen - 1 } : ConsumerState).running = true
        · have hm2 : Label.fetchIssued c ∈
              (didHandleEvent cfg { s with queueLen := s.queueLen - 1 }).2 := hm
          rw [didHandleEvent_eq_running cfg _ hr] at hm2
          simp only [List.mem_append] at hm2
          rcases hm2 with hm2 | hm2
          · by_cases hq0 : getQueueLength { s with queueLen := s.queueLen - 1 } = 0 <;>
              simp [hq0] at hm2
          · have := (poll_issue_cancels cfg _ c hm2).1
            show (didHandleEvent cfg { s with queueLen := s.queueLen - 1 }).1.timerPending = 0
            rw [didHandleEvent_eq_running cfg _ hr]
            exact this
        · have hm2 : Label.fetchIssued c ∈
              (didHandleEvent cfg { s with queueLen := s.queueLen - 1 }).2 := hm
          rw [didHandleEvent_eq_stopped cfg _ (by simpa using hr)] at hm2
          split_ifs at hm2 <;> simp at hm2
      · simp [taskCompleted] at hm
  | start =>
    exact (poll_issue_cancels cfg _ c hm).1
  | stop =>
    simp at hm

theorem reachable_inv (cfg : Config) (s : ConsumerState)
    (hs : Reachable cfg s) : Inv s := by
  induction hs with
  | init => exact inv_initial
  | step ht hstep ih => exact inv_step cfg _ _ _ ih hstep

theorem handleEvent_exactly_one_acknack_witness :
    (handleEvent alwaysFail sampleEvent HandlerOutcome.resolves).handlerInvocations = 1 ∧
    (handleEvent alwaysFail sampleEvent HandlerOutcome.resolves).ackCalls +
      (handleEvent alwaysFail sampleEvent HandlerOutcome.resolves).nackCalls = 1 ∧
    (handleEvent alwaysFail sampleEvent HandlerOutcome.resolves).ackCalls = 1 ∧
    (handleEvent alwaysFail sampleEvent HandlerOutcome.resolves).ackNack.url =
      findLink sampleEvent.links "ack" := by
  have h := handleEvent_exactly_one_acknack alwaysFail sampleEvent
    HandlerOutcome.resolves
  exact ⟨h.1, h.2.1, (h.2.2.1 rfl).1, (h.2.2.1 rfl).2.2.1⟩

/-- C5: in every reachable state of the consumer, at most one poll request
is outstanding and at most one delayed re-check timeout is pending; and
whenever any operation takes a step that issues a fetch request (a new poll
attempt begins issuing), the resulting state carries no pending timer — the
previously scheduled re-check was cancelled. -/
theorem poll_token_invariant (cfg : Config) (s : ConsumerState)
    (hs : Reachable cfg s) :
    s.outstanding ≤ 1 ∧ s.timerPending ≤ 1 ∧
    (∀ ls s' c, Step cfg s ls s' → Label.fetchIssued c ∈ ls →
      s'.timerPending = 0) := by
  obtain ⟨h1, h2, _⟩ := reachable_inv cfg s hs
  refine ⟨?_, h2, ?_⟩
  · rw [h1]
    split_ifs <;> omega
  · intro ls s' c hstep hm
    exact step_fetch_cancels cfg s ls s' hstep c hm

theorem poll_token_invariant_witness :
    initialState.outstanding ≤ 1 ∧ initialState.timerPending ≤ 1 := by
  have h := poll_token_invariant cfgOne initialState Reachable.init
  exact ⟨h.1, h.2.1⟩

/-- C1 counterexample: right after `start()` a fetch request is outstanding
and the consumer is running, yet the transport-failure completion of that
request emits zero `poll` events — the event does not fire on the failure
path, refuting that it fires once on every completed attempt. -/
theorem poll_event_failure_cex :
    1 ≤ afterStart.outstanding ∧ afterStart.running = true ∧
    (completeFailure cfgOne afterStart).2.count Label.pollEmitted = 0 := by
  decide

/-- C1 amended: the `poll` observability event fires exactly once per fetch
request that completes successfully while the consumer is still running
(with or without entries), and zero times when the fetch fails or when the
consumer was stopped while the request was in flight. -/
theorem poll_event_success_only (cfg : Config) (s : ConsumerState)
    (entries : Nat) :
    (completeSuccess cfg s entries).2.count Label.pollEmitted =
      (if s.running then 1 else 0) ∧
    (completeFailure cfg s).2.count Label.pollEmitted = 0 := by
  constructor
  · by_cases hr : s.running = true
    · by_cases he : 0 < entries
      · rw [completeSuccess_eq_entries cfg s entries hr he, hr]
        simp [List.count_append,
          List.count_eq_zero.mpr (poll_no_pollEmitted cfg _)]
      · rw [completeSuccess_eq_empty cfg s entries hr he, hr]
        simp
    · have hr0 : s.running = false := by simpa using hr
      rw [completeSuccess_eq_stopped cfg s entries hr0, hr0]
      simp
  · by_cases hr : s.running = true
    · rw [completeFailure_eq_running cfg s hr]
      simp
    · rw [completeFailure_eq_stopped cfg s (by simpa using hr)]
      simp

/-- C2 counterexample: in the reachable state `afterBatch` (running, one
queued event) the queued task settles with its ack rejected after
exhausting retries: the queue count does drop to zero, but the step emits
nothing at all — no drain signal and no re-poll — whereas the same
settlement with a successful ack emits the drain signal. -/
theorem ack_exhaustion_skips_slot_freed_cex :
    afterBatch.running = true ∧ afterBatch.queueLen = 1 ∧
    (taskCompleted cfgOne afterBatch true).1.queueLen = 0 ∧
    (taskCompleted cfgOne afterBatch true).2 = [] ∧
    (taskCompleted cfgOne afterBatch false).2.count Label.drainEmitted = 1 := by
  decide

/-- C2 amended: when the ack/nack of a queued task ultimately fails after
exhausting retries, the count of the queue is still decremented, but the
rejection is routed to the console-log handler instead of
`didHandleEvent`: no drain check runs and the Poller is not re-invoked from
that completion; only a task whose ack/nack resolved runs
`didHandleEvent`. -/
theorem ack_exhaustion_decrements_but_skips (cfg : Config)
    (s : ConsumerState) :
    taskCompleted cfg s true = ({ s with queueLen := s.queueLen - 1 }, []) ∧
    taskCompleted cfg s false =
      didHandleEvent cfg { s with queueLen := s.queueLen - 1 } :=
  ⟨rfl, rfl⟩

/-- C4 counterexample: in the reachable state `afterBatch` the pending
re-check timer fires while capacity is still ≤ 0; the poll invocation
issues no fetch, but no delayed re-check remains pending afterwards either:
the fired timer left the `pollTimer` field set, so `schedulePoll` declines
to arm a new timeout. -/
theorem capacity_guard_stale_timer_cex :
    Reachable cfgOne afterBatch ∧
    afterBatch.timerPending = 1 ∧
    (cfgOne.concurrency : Int) -
      (getQueueLength { afterBatch with
        timerPending := afterBatch.timerPending - 1 } : Int) ≤ 0 ∧
    (timerFire cfgOne afterBatch).2 = [] ∧
    (timerFire cfgOne afterBatch).1.timerPending = 0 ∧
    (timerFire cfgOne afterBatch).1.timerField = true := by
  refine ⟨?_, by decide, by decide, by decide, by decide, by decide⟩
  have h1 : Step cfgOne initialState (start cfgOne initialState).2 afterStart :=
    Step.start initialState
  have h2 : Step cfgOne afterStart (completeSuccess cfgOne afterStart 1).2
      afterBatch :=
    Step.env (EnvStep.completeSuccess 1 (by decide))
  exact Reachable.step (Reachable.step Reachable.init h1) h2

/-- C4 amended: a poll invocation whose computed capacity is ≤ 0 issues no
fetch request and hands the state to `schedulePoll`, which arms a new
delayed re-check only when the `pollTimer` field is clear (a fired timer
leaves it set); and every fetch request that is issued asks for a strictly
positive number of events, namely the computed capacity. -/
theorem poll_capacity_guard (cfg : Config) (s : ConsumerState) :
    ((cfg.concurrency : Int) - (getQueueLength s : Int) ≤ 0 →
      poll cfg s = (schedulePoll s, []) ∧
      (s.timerField = false →
        (schedulePoll s).timerPending = s.timerPending + 1)) ∧
    (∀ c, Label.fetchIssued c ∈ (poll cfg s).2 →
      0 < c ∧ (c : Int) = (cfg.concurrency : Int) - (getQueueLength s : Int)) := by
  constructor
  · intro h
    refine ⟨poll_eq_nocap cfg s h, ?_⟩
    intro hf
    unfold schedulePoll
    rw [if_neg (by simp [hf])]
  · intro c hc
    exact poll_fetch_positive cfg s c hc

theorem poll_capacity_guard_witness :
    poll cfgOne ⟨true, false, 0, false, 0, 1⟩ =
      (schedulePoll ⟨true, false, 0, false, 0, 1⟩, []) ∧
    (schedulePoll (⟨true, false, 0, false, 0, 1⟩ : ConsumerState)).timerPending = 1 := by
  have h := (poll_capacity_guard cfgOne ⟨true, false, 0, false, 0, 1⟩).1 (by decide)
  refine ⟨h.1, ?_⟩
  rw [h.2 rfl]

/-- C8 counterexample: a construction with both stream and group absent but
a base address supplied succeeds — missing subscription identity raises
nothing. -/
theorem construct_missing_identity_cex :
    construct ⟨none, none, none, some "http://es:2113", none⟩ none =
      Except.ok ⟨none, none, 1, "http://es:2113", 500⟩ := by
  rfl

/-- C8 amended: the constructor raises immediately exactly when the
resolved base address — the `eventStoreUrl` option, else the environment
variable — is empty; the subscription identity (stream, group) is copied
unchecked, so its absence raises nothing. -/
theorem construct_raises_iff_no_url (params : Params)
    (envUrl : Option String) :
    (jsOrString params.eventStoreUrl (jsOrString envUrl "") = "" →
      ∃ msg, construct params envUrl = Except.error msg) ∧
    (¬ jsOrString params.eventStoreUrl (jsOrString envUrl "") = "" →
      construct params envUrl =
        Except.ok ⟨params.stream, params.group, jsOrNat params.concurrency 1,
          jsOrString params.eventStoreUrl (jsOrString envUrl ""),
          jsOrNat params.pollDelay 500⟩) := by
  constructor
  · intro h
    refine ⟨"Event Store URL must be supplied to EventStoreConsumer. Either set the eventStoreUrl option or set the EVENT_STORE_URL env variable.", ?_⟩
    simp only [construct]
    rw [if_pos h]
  · intro h
    simp only [construct]
    rw [if_neg h]

theorem construct_raises_iff_no_url_witness :
    ∃ msg, construct ⟨some "MyStream", some "my-service", none, none, none⟩
      none = Except.error msg :=
  (construct_raises_iff_no_url
    ⟨some "MyStream", some "my-service", none, none, none⟩ none).1 rfl

/-- C9: in every state of the spec-modelled dispatch queue reachable from a
fresh queue with concurrency ceiling C, the number of handler invocations
in flight at the same time never exceeds C. -/
theorem dispatch_queue_bounded (limit : Nat) (q : DispatchQueue)
    (hq : QueueReachable limit q) : q.inFlight ≤ limit := by
  suffices h : q.limit = limit ∧ q.inFlight ≤ limit from h.2
  induction hq with
  | init => exact ⟨rfl, Nat.zero_le limit⟩
  | step hp hstep ih =>
    obtain ⟨ihl, ihf⟩ := ih
    cases hstep with
    | submit => exact ⟨ihl, ihf⟩
    | dispatch hcap hpend =>
      refine ⟨ihl, ?_⟩
      show _ + 1 ≤ limit
      omega
    | complete h =>
      refine ⟨ihl, ?_⟩
      show _ - 1 ≤ limit
      omega

theorem dispatch_queue_bounded_witness :
    (DispatchQueue.new 5).inFlight ≤ 5 :=
  dispatch_queue_bounded 5 (DispatchQueue.new 5) QueueReachable.init

theorem envStep_stopped_no_fetch (cfg : Config) {s : ConsumerState}
    {ls : List Label} {s' : ConsumerState} (h : EnvStep cfg s ls s')
    (hr : s.running = false) (hp : s.timerPending = 0) :
    s'.running = false ∧ s'.timerPending = 0 ∧
      ∀ c, Label.fetchIssued c ∉ ls := by
  cases h with
  | completeSuccess entries ho =>
    rw [completeSuccess_eq_stopped cfg s entries hr]
    exact ⟨hr, hp, by simp⟩
  | completeFailure ho =>
    rw [completeFailure_eq_stopped cfg s hr]
    exact ⟨hr, hp, by simp⟩
  | timerFire ho => omega
  | taskCompleted rejected hq =>
    cases rejected
    · have hr1 : ({ s with queueLen := s.queueLen - 1 } : ConsumerState).running
          = false := hr
      have heq : taskCompleted cfg s false =
          ({ s with queueLen := s.queueLen - 1 },
            if getQueueLength { s with queueLen := s.queueLen - 1 } = 0
              then [Label.drainEmitted] else []) :=
        didHandleEvent_eq_stopped cfg { s with queueLen := s.queueLen - 1 } hr1
      rw [heq]
      refine ⟨hr, hp, ?_⟩
      intro c
      split_ifs <;> simp
    · exact ⟨hr, hp, by simp [taskCompleted]⟩

theorem envTrace_stopped_no_fetch (cfg : Config) :
    ∀ s ls t, EnvTrace cfg s ls t → s.running = false → s.timerPending = 0 →
      ∀ c, Label.fetchIssued c ∉ ls := by
  intro s ls t h
  induction h with
  | refl u => intro _ _ c; simp
  | step hstep htrace ih =>
    intro hr hp c hmem
    have h3 := envStep_stopped_no_fetch cfg hstep hr hp
    rcases List.mem_append.mp hmem with hm | hm
    · exact h3.2.2 c hm
    · exact ih h3.1 h3.2.1 c hm

/-- C10: `stop()` is callable in every state, including the initial
Stopped state before `start()` was ever called: its promise is already
resolved exactly when the queue is empty (so always from the initial
state), the scheduled poll timer is cancelled, running is cleared, and no
subsequent environment step — request completions, timer fires, task
settlements — ever issues a fetch request. -/
theorem stop_callable_everywhere (cfg : Config) (s : ConsumerState) :
    ((stop s).2 = true ↔ getQueueLength s = 0) ∧
    (stop s).1.running = false ∧
    (stop s).1.timerPending = 0 ∧
    (stop s).1.timerField = false ∧
    (stop initialState).2 = true ∧
    (∀ ls t, EnvTrace cfg (stop s).1 ls t →
      ∀ c, Label.fetchIssued c ∉ ls) := by
  refine ⟨?_, rfl, rfl, rfl, rfl, ?_⟩
  · simp [stop, cancelScheduledPoll, getQueueLength]
  · intro ls t h c
    exact envTrace_stopped_no_fetch cfg (stop s).1 ls t h rfl rfl c

theorem stop_callable_everywhere_witness :
    (stop initialState).2 = true ∧
    (∀ c, Label.fetchIssued c ∉ ([] : List Label)) := by
  have h := stop_callable_everywhere cfgOne initialState
  exact ⟨h.2.2.2.2.1,
    fun c => h.2.2.2.2.2 [] (stop initialState).1 (EnvTrace.refl _) c⟩

end EventStore
